import Mathlib

/-!
Shallow embedding of the room coordinator in
`dsns-calopoly-server/app/index.js` (Express + socket.io server).

Modelling conventions:
* JS objects `rooms` and socket.io room membership are modelled explicitly:
  the registry is an association list (JS object keys iterate in insertion
  order, which the `disconnect` handler's `for (const roomID in rooms)`
  loop depends on), and socket.io membership is a map from room id to the
  list of subscribed socket ids (`socket.join` is idempotent, as in
  socket.io where rooms are sets).
* `Player` and `Room` mirror the `Player` / `GameState` interfaces shipped
  with the repository.  The optional JS field `disconnected` is a `Bool`
  (`undefined` is falsy, i.e. `false`); `roomID` is `Option String`.
* Client payloads that the server feeds to `JSON.parse` are modelled by
  `JsonMsg α`: `invalid raw` is a string rejected by `isValidJSON`,
  `wrongShape raw` a string that parses but not to the handler's expected
  shape (`Array.isArray` / `typeof === "boolean"` fails), and `ok raw v` a
  string parsing to shape `v`.  `update-turn` / `update-dice` never parse
  and carry the raw string.  A `chat` message is `Option String` (`none`
  models a non-string value, rejected by `typeof msg !== "string"`).
* Every `socket.emit` / `io.to(room).emit` is recorded as an `Emit` value;
  `JSON.stringify` of a structured value is modelled by the corresponding
  `Payload` constructor.
* `setTimeout` callbacks scheduled by the disconnect handler are `Timer`
  values; the runtime fires each scheduled timer exactly once, 60 s after
  scheduling (the `disconnectTimers` table in the source is write-only:
  it is never read or cleared, so every scheduled timeout fires).  The JS
  callback closes over the room object; `fireTimer` reads the registry,
  which agrees with the captured object whenever the registry still maps
  the room id to that room.
-/

namespace Calopoly

/-- Shape of the `Property` interface from the repository's type declarations. -/
structure Property where
  name : String
  type : String
  price : Option Int
  houses : Option Int
  mortgaged : Option Bool
  hotel : Option Bool
  color : Option String
  ownerID : Option String
  rent : Option (List Int)
deriving DecidableEq

/-- Shape of the `Player` interface from the repository's type declarations. -/
structure Player where
  position : Int
  name : String
  symbol : String
  money : Int
  properties : List Property
  recentDiff : Int
  id : String
  socketID : String
  roomID : Option String
  disconnected : Bool
deriving DecidableEq

/-- Shape of the `GameState` interface: the per-room authoritative state. -/
structure Room where
  players : List Player
  currentTurn : Int
  dice : Int × Int
  started : Bool
  chat : List String
deriving DecidableEq

/-- The literal `{ players: [], currentTurn: 0, dice: [-1, -1], started: false, chat: [] }`. -/
def emptyRoom : Room :=
  { players := [], currentTurn := 0, dice := (-1, -1), started := false, chat := [] }

/-- The `rooms` object: room id keys in insertion order. -/
abbrev Rooms := List (String × Room)

/-- Read of `rooms[roomID]`. -/
def lookupRoom : Rooms → String → Option Room
  | [], _ => none
  | (k, r) :: rest, roomID => if k = roomID then some r else lookupRoom rest roomID

/-- Write `rooms[roomID] = r`: update in place, or add a new key at the end. -/
def setRoom : Rooms → String → Room → Rooms
  | [], roomID, r => [(roomID, r)]
  | (k, r0) :: rest, roomID, r =>
    if k = roomID then (k, r) :: rest else (k, r0) :: setRoom rest roomID r

/-- Deletion `delete rooms[roomID]`. -/
def deleteRoom : Rooms → String → Rooms
  | [], _ => []
  | (k, r0) :: rest, roomID =>
    if k = roomID then rest else (k, r0) :: deleteRoom rest roomID

/-- socket.io room membership: room id → subscribed socket ids. -/
abbrev Subs := String → List String

/-- Model of `socket.join(roomID)`: idempotent subscription (socket.io rooms are sets). -/
def subsJoin (subs : Subs) (roomID sid : String) : Subs :=
  fun r =>
    if r = roomID then (if sid ∈ subs r then subs r else subs r ++ [sid]) else subs r

/-- Destination of an emit: `io.to(roomID).emit` or `socket.emit`. -/
inductive Target where
  | toRoom (roomID : String)
  | toSocket (sid : String)
deriving DecidableEq

/-- Emitted payload; the `jsonX` constructors model `JSON.stringify` of the value. -/
inductive Payload where
  | raw (s : String)
  | jsonRoom (r : Room)
  | jsonPlayers (ps : List Player)
  | jsonTurn (n : Int)
  | jsonDice (d : Int × Int)
  | jsonChat (c : List String)
  | jsonBool (b : Bool)
deriving DecidableEq

/-- One `emit` call. -/
structure Emit where
  target : Target
  event : String
  payload : Payload
deriving DecidableEq

/-- A client-supplied JSON-encoded payload, classified by parse outcome. -/
inductive JsonMsg (α : Type) where
  | invalid (raw : String)
  | wrongShape (raw : String)
  | ok (raw : String) (v : α)
deriving DecidableEq

/-- A pending `setTimeout` eviction task: the closure captures `socket.id`,
`roomID` and `player.name`. -/
structure Timer where
  sid : String
  roomID : String
  playerName : String
deriving DecidableEq

/-- Whole-server state: the `rooms` object, socket.io membership, and the
scheduled (not yet fired) eviction tasks. -/
structure ServerState where
  rooms : Rooms
  subs : Subs
  timers : List Timer

/-- Server state at process start. -/
def initState : ServerState := { rooms := [], subs := fun _ => [], timers := [] }

/-- The fixed eleven-symbol alphabet from the `join-room` handler. -/
def possibleSymbols : List String :=
  ["🐇", "🐄", "🐕", "🐈", "🐓", "🐖", "🐐", "🐎", "🐂", "🐑", "🐩"]

/-- Truthiness of `rooms[roomID].players.find(p => p.name === player.name && p.id !== player.id)`:
the duplicate display-name check. -/
def nameTaken (room : Room) (player : Player) : Bool :=
  (room.players.find? fun p => p.name == player.name && p.id != player.id).isSome

/-- Symbol assignment for a fresh player: first symbol of `possibleSymbols`
not used by any player in the room, with the `|| "🐇"` fallback. -/
def assignSymbol (room : Room) : String :=
  let usedSymbols := room.players.map Player.symbol
  (possibleSymbols.find? fun c => !usedSymbols.contains c).getD "🐇"

/-- The identity-reconciliation step of `join-room`: if a player with the
claim's stable id already exists, the room is left as is (the stored record
is NOT merged with the incoming claim); otherwise the claim is appended
with a freshly assigned symbol. -/
def reconcilePlayer (room : Room) (player : Player) : Room :=
  match room.players.find? fun p => p.id == player.id with
  | some _ => room
  | none => { room with players := room.players ++ [{ player with symbol := assignSymbol room }] }

/-- The five broadcasts at the end of a non-rejected `join-room`. -/
def joinBroadcasts (roomID : String) (room : Room) : List Emit :=
  [⟨Target.toRoom roomID, "joined-room", Payload.jsonRoom room⟩,
   ⟨Target.toRoom roomID, "update-players", Payload.jsonPlayers room.players⟩,
   ⟨Target.toRoom roomID, "update-turn", Payload.jsonTurn room.currentTurn⟩,
   ⟨Target.toRoom roomID, "update-dice", Payload.jsonDice room.dice⟩,
   ⟨Target.toRoom roomID, "update-chat", Payload.jsonChat room.chat⟩]

/-- Handler for `socket.on("join-room", (roomID, player) => ...)`.  `claim = none` models a
falsy `player` argument; a falsy `roomID` string is `""`.  `socket.join`
happens before the duplicate-name check.  When the room is absent the JS
creates the empty room and then appends into it, which nets to one write of
the reconciled room. -/
def joinRoom (s : ServerState) (sid roomID : String) (claim : Option Player) :
    ServerState × List Emit :=
  match claim with
  | none => (s, [])
  | some player =>
    if roomID = "" then (s, [])
    else
      let subs := subsJoin s.subs roomID sid
      match lookupRoom s.rooms roomID with
      | some room =>
        if nameTaken room player then
          ({ s with subs := subs },
           [⟨Target.toSocket sid, "name-taken", Payload.jsonBool true⟩])
        else
          let player := { player with socketID := sid, roomID := some roomID }
          let room := reconcilePlayer room player
          ({ s with rooms := setRoom s.rooms roomID room, subs := subs },
           joinBroadcasts roomID room)
      | none =>
        let player := { player with socketID := sid, roomID := some roomID }
        let room := reconcilePlayer emptyRoom player
        ({ s with rooms := setRoom s.rooms roomID room, subs := subs },
         joinBroadcasts roomID room)

/-- Handler for `socket.on("update-players", ...)`: requires valid JSON and a known room,
then requires an array, then overwrites the player sequence wholesale. -/
def updatePlayers (s : ServerState) (roomID : String) (msg : JsonMsg (List Player)) :
    ServerState × List Emit :=
  match msg, lookupRoom s.rooms roomID with
  | JsonMsg.invalid _, _ => (s, [])
  | _, none => (s, [])
  | JsonMsg.wrongShape _, some _ => (s, [])
  | JsonMsg.ok _ ps, some room =>
    ({ s with rooms := setRoom s.rooms roomID { room with players := ps } },
     [⟨Target.toRoom roomID, "update-players", Payload.jsonPlayers ps⟩])

/-- Handler for `socket.on("update-turn", ...)`: forwards the raw message, no registry access. -/
def updateTurn (s : ServerState) (roomID msg : String) : ServerState × List Emit :=
  (s, [⟨Target.toRoom roomID, "update-turn", Payload.raw msg⟩])

/-- Handler for `socket.on("update-dice", ...)`: forwards the raw message, no registry access. -/
def updateDice (s : ServerState) (roomID msg : String) : ServerState × List Emit :=
  (s, [⟨Target.toRoom roomID, "update-dice", Payload.raw msg⟩])

/-- Handler for `socket.on("start-state", ...)`: requires valid JSON and a known room, then
requires a boolean, stores it and re-emits the raw message. -/
def startState (s : ServerState) (roomID : String) (msg : JsonMsg Bool) :
    ServerState × List Emit :=
  match msg, lookupRoom s.rooms roomID with
  | JsonMsg.invalid _, _ => (s, [])
  | _, none => (s, [])
  | JsonMsg.wrongShape _, some _ => (s, [])
  | JsonMsg.ok raw b, some room =>
    ({ s with rooms := setRoom s.rooms roomID { room with started := b } },
     [⟨Target.toRoom roomID, "start-state", Payload.raw raw⟩])

/-- Handler for `socket.on("chat", ...)`: known room, string message of length ≤ 500,
appended and the whole chat list broadcast. -/
def chatEvent (s : ServerState) (roomID : String) (msg : Option String) :
    ServerState × List Emit :=
  match lookupRoom s.rooms roomID, msg with
  | none, _ => (s, [])
  | some _, none => (s, [])
  | some room, some m =>
    if m.length > 500 then (s, [])
    else
      let room := { room with chat := room.chat ++ [m] }
      ({ s with rooms := setRoom s.rooms roomID room },
       [⟨Target.toRoom roomID, "chat", Payload.jsonChat room.chat⟩])

/-- First player satisfying the predicate together with its index
(`findIndex` plus the subsequent indexed read). -/
def findWithIdx (f : Player → Bool) : List Player → Option (Nat × Player)
  | [] => none
  | p :: ps => if f p then some (0, p) else (findWithIdx f ps).map fun ip => (ip.1 + 1, ip.2)

/-- In-place field update of the player at a given index
(`room.players[playerIndex].disconnected = true` style mutation). -/
def modifyAt (i : Nat) (f : Player → Player) : List Player → List Player
  | [] => []
  | p :: ps =>
    match i with
    | 0 => f p :: ps
    | j + 1 => p :: modifyAt j f ps

/-- The `for (const roomID in rooms)` loop of the disconnect handler: in key
insertion order, find the first room holding a player with the closing socket
id; annotate its chat, mark the player disconnected, schedule an eviction
task, and `break`. -/
def handleDisconnectLoop (sid : String) : Rooms → Rooms × Option Timer × List Emit
  | [] => ([], none, [])
  | (roomID, room) :: rest =>
    match findWithIdx (fun p => p.socketID == sid) room.players with
    | some ip =>
      let room := { room with
        chat := room.chat ++ [ip.2.name ++ " disconnected. Waiting 60 seconds..."] }
      let room := { room with
        players := modifyAt ip.1 (fun p => { p with disconnected := true }) room.players }
      ((roomID, room) :: rest, some ⟨sid, roomID, ip.2.name⟩,
       [⟨Target.toRoom roomID, "chat", Payload.jsonChat room.chat⟩])
    | none =>
      let r := handleDisconnectLoop sid rest
      ((roomID, room) :: r.1, r.2.1, r.2.2)

/-- Handler for `socket.on("disconnect", ...)`: run the loop and record the scheduled task
(`disconnectTimers[socket.id] = setTimeout(..., 60 * 1000)`). -/
def handleDisconnect (s : ServerState) (sid : String) : ServerState × List Emit :=
  let r := handleDisconnectLoop sid s.rooms
  ({ s with rooms := r.1, timers := s.timers ++ r.2.1.toList }, r.2.2)

/-- The `setTimeout` callback body: re-find the player by socket id, and only
if it is still flagged disconnected, splice it out; delete the room when it
became empty (in which case the trailing chat annotation is skipped, since
`rooms[roomID]` is gone). -/
def fireTimer (s : ServerState) (t : Timer) : ServerState × List Emit :=
  match lookupRoom s.rooms t.roomID with
  | none => (s, [])
  | some room =>
    match findWithIdx (fun p => p.socketID == t.sid) room.players with
    | none => (s, [])
    | some ip =>
      if ip.2.disconnected then
        let players := room.players.eraseIdx ip.1
        let e1 : Emit := ⟨Target.toRoom t.roomID, "update-players", Payload.jsonPlayers players⟩
        if players.length = 0 then
          ({ s with rooms := deleteRoom s.rooms t.roomID }, [e1])
        else
          let room := { room with
            players := players, chat := room.chat ++ [t.playerName ++ " disconnected."] }
          ({ s with rooms := setRoom s.rooms t.roomID room },
           [e1, ⟨Target.toRoom t.roomID, "chat", Payload.jsonChat room.chat⟩])
      else (s, [])

/-- The closed protocol surface: one variant per handled event, plus the
transport-generated disconnect and the firing of a scheduled eviction task. -/
inductive Event where
  | joinRoomEv (sid roomID : String) (claim : Option Player)
  | updatePlayersEv (roomID : String) (msg : JsonMsg (List Player))
  | updateTurnEv (roomID msg : String)
  | updateDiceEv (roomID msg : String)
  | startStateEv (roomID : String) (msg : JsonMsg Bool)
  | chatEv (roomID : String) (msg : Option String)
  | disconnectEv (sid : String)
  | timerFireEv (t : Timer)

/-- Single dispatch over the protocol surface. -/
def step (s : ServerState) : Event → ServerState × List Emit
  | Event.joinRoomEv sid roomID claim => joinRoom s sid roomID claim
  | Event.updatePlayersEv roomID msg => updatePlayers s roomID msg
  | Event.updateTurnEv roomID msg => updateTurn s roomID msg
  | Event.updateDiceEv roomID msg => updateDice s roomID msg
  | Event.startStateEv roomID msg => startState s roomID msg
  | Event.chatEv roomID msg => chatEvent s roomID msg
  | Event.disconnectEv sid => handleDisconnect s sid
  | Event.timerFireEv t => fireTimer s t

/-- A broadcast to a room channel reaches exactly the subscribed sockets; a
direct emit reaches exactly the requester. -/
def deliversTo (subs : Subs) (e : Emit) (sid : String) : Bool :=
  match e.target with
  | Target.toRoom roomID => (subs roomID).contains sid
  | Target.toSocket s0 => s0 == sid

/-- Sequential processing of a list of join events into one room. -/
def runJoins (s : ServerState) (roomID : String) : List (String × Player) → ServerState
  | [] => s
  | (sid, c) :: rest => runJoins (joinRoom s sid roomID (some c)).1 roomID rest

/-- A sample incoming player claim, as a client would submit it. -/
def mkClaim (pid pname : String) : Player :=
  { position := 0, name := pname, symbol := "", money := 1500, properties := [],
    recentDiff := 0, id := pid, socketID := "", roomID := none, disconnected := false }

/-- All rooms in the registry still carry their creation-time turn pointer and
dice values. -/
def turnDiceAtCreation (rooms : Rooms) : Prop :=
  ∀ e ∈ rooms, e.2.currentTurn = 0 ∧ e.2.dice = (-1, -1)

/-! ### Concrete scenarios used by witnesses and counterexamples -/

/-- A stored player record for stable id "2" whose connection "old" has
dropped: flagged disconnected, awaiting the eviction task. -/
def bobStored : Player :=
  { mkClaim "2" "Bob" with
    socketID := "old"
    roomID := some "R"
    symbol := "🐇"
    disconnected := true }

/-- Room "R" holding only the disconnected `bobStored`. -/
def c2State : ServerState :=
  { rooms := [("R", { emptyRoom with players := [bobStored] })],
    subs := fun _ => [], timers := [] }

/-- Trace for the disconnect/rejoin race: Bob joins room "R" from socket
"sB"... -/
def c1AfterJoin : ServerState := (joinRoom initState "sB" "R" (some (mkClaim "2" "Bob"))).1

/-- Next his transport connection drops (flag set, eviction task scheduled). -/
def c1AfterDisc : ServerState := (handleDisconnect c1AfterJoin "sB").1

/-- Then he rejoins with the same stable id "2" from fresh socket "sB2" before
the 60-second task fires. -/
def c1AfterRejoin : ServerState := (joinRoom c1AfterDisc "sB2" "R" (some (mkClaim "2" "Bob"))).1

/-- Finally the scheduled eviction task fires. -/
def c1AfterFire : ServerState := (fireTimer c1AfterRejoin ⟨"sB", "R", "Bob"⟩).1

/-- Twelve join claims with pairwise distinct stable ids and names. -/
def twelveClaims : List (String × Player) :=
  (List.range 12).map fun i =>
    ("s" ++ toString (i + 1), mkClaim (toString (i + 1)) ("P" ++ toString (i + 1)))

/-- Registry after the twelve joins into room "R". -/
def after12 : ServerState := runJoins initState "R" twelveClaims

/-- A connected stored player holding the name "Alice" under stable id "1". -/
def aliceStored : Player :=
  { mkClaim "1" "Alice" with socketID := "s1", roomID := some "R", symbol := "🐇" }

/-- The player record stored for claim `mkClaim "1" "P1"` joining room "R"
from socket "s1": connection fields filled in, first symbol assigned. -/
def p1New : Player :=
  { mkClaim "1" "P1" with socketID := "s1", roomID := some "R", symbol := "🐇" }

/-- Room holding `aliceStored`; a second socket will claim the name
"Alice" under a different stable id. -/
def w10Room : Room := { emptyRoom with players := [aliceStored] }

/-- Registry mapping "R" to `w10Room`, with no subscriptions yet. -/
def w10State : ServerState :=
  { rooms := [("R", w10Room)], subs := fun _ => [], timers := [] }

/-! ### Registry and subscription lemmas -/

theorem lookupRoom_setRoom_self (rooms : Rooms) (k : String) (r : Room) :
    lookupRoom (setRoom rooms k r) k = some r := by
  induction rooms with
  | nil => simp [setRoom, lookupRoom]
  | cons e rest ih =>
    obtain ⟨k0, r0⟩ := e
    by_cases h : k0 = k <;> simp [setRoom, lookupRoom, h, ih]

theorem mem_setRoom {rooms : Rooms} {k : String} {r : Room} {e : String × Room}
    (he : e ∈ setRoom rooms k r) : e ∈ rooms ∨ e = (k, r) := by
  induction rooms with
  | nil => simp [setRoom] at he; simp [he]
  | cons e0 rest ih =>
    obtain ⟨k0, r0⟩ := e0
    by_cases h : k0 = k
    · simp [setRoom, h] at he
      rcases he with he | he
      · right; simp [he, h]
      · left; exact List.mem_cons_of_mem _ he
    · simp [setRoom, h] at he
      rcases he with he | he
      · left; simp [he]
      · rcases ih he with h1 | h1
        · left; exact List.mem_cons_of_mem _ h1
        · right; exact h1

theorem mem_deleteRoom {rooms : Rooms} {k : String} {e : String × Room}
    (he : e ∈ deleteRoom rooms k) : e ∈ rooms := by
  induction rooms with
  | nil => simp [deleteRoom] at he
  | cons e0 rest ih =>
    obtain ⟨k0, r0⟩ := e0
    by_cases h : k0 = k
    · simp [deleteRoom, h] at he
      exact List.mem_cons_of_mem _ he
    · simp [deleteRoom, h] at he
      rcases he with he | he
      · simp [he]
      · exact List.mem_cons_of_mem _ (ih he)

theorem lookupRoom_mem {rooms : Rooms} {k : String} {r : Room}
    (h : lookupRoom rooms k = some r) : (k, r) ∈ rooms := by
  induction rooms with
  | nil => simp [lookupRoom] at h
  | cons e0 rest ih =>
    obtain ⟨k0, r0⟩ := e0
    by_cases hk : k0 = k
    · simp [lookupRoom, hk] at h
      simp [hk, h]
    · simp [lookupRoom, hk] at h
      exact List.mem_cons_of_mem _ (ih h)

theorem subsJoin_mem_mono {subs : Subs} {roomID sid0 : String} {r x : String}
    (h : x ∈ subs r) : x ∈ subsJoin subs roomID sid0 r := by
  unfold subsJoin
  split
  · split
    · exact h
    · exact List.mem_append_left _ h
  · exact h

theorem subsJoin_mem_self (subs : Subs) (roomID sid : String) :
    sid ∈ subsJoin subs roomID sid roomID := by
  unfold subsJoin
  simp only [if_pos rfl]
  by_cases h : sid ∈ subs roomID
  · simp [h]
  · simp [h]

/-! ### `join-room` path lemmas -/

theorem nameTaken_eq_false (room : Room) (player : Player)
    (h : ∀ p ∈ room.players, p.name ≠ player.name) : nameTaken room player = false := by
  have hf : (room.players.find? fun p => p.name == player.name && p.id != player.id) = none := by
    rw [List.find?_eq_none]
    intro p hp
    simp [h p hp]
  simp [nameTaken, hf]

theorem reconcilePlayer_append (room : Room) (player : Player)
    (hid : ∀ p ∈ room.players, p.id ≠ player.id) :
    reconcilePlayer room player =
      { room with players := room.players ++ [{ player with symbol := assignSymbol room }] } := by
  have hf : (room.players.find? fun p => p.id == player.id) = none := by
    rw [List.find?_eq_none]
    intro p hp
    simp [hid p hp]
  simp [reconcilePlayer, hf]

theorem joinRoom_rejects (s : ServerState) (sid roomID : String)
    (player : Player) (room : Room)
    (h0 : roomID ≠ "")
    (hroom : lookupRoom s.rooms roomID = some room)
    (htaken : nameTaken room player = true) :
    joinRoom s sid roomID (some player) =
      ({ s with subs := subsJoin s.subs roomID sid },
       [⟨Target.toSocket sid, "name-taken", Payload.jsonBool true⟩]) := by
  simp [joinRoom, hroom, htaken, h0]

theorem joinRoom_accepts (s : ServerState) (sid roomID : String)
    (player : Player) (room : Room)
    (h0 : roomID ≠ "")
    (hroom : lookupRoom s.rooms roomID = some room)
    (hnt : nameTaken room player = false) :
    joinRoom s sid roomID (some player) =
      ({ s with
          rooms := setRoom s.rooms roomID
            (reconcilePlayer room { player with socketID := sid, roomID := some roomID }),
          subs := subsJoin s.subs roomID sid },
       joinBroadcasts roomID
         (reconcilePlayer room { player with socketID := sid, roomID := some roomID })) := by
  simp [joinRoom, hroom, hnt, h0]

theorem joinRoom_creates (s : ServerState) (sid roomID : String) (player : Player)
    (h0 : roomID ≠ "")
    (hnone : lookupRoom s.rooms roomID = none) :
    joinRoom s sid roomID (some player) =
      ({ s with
          rooms := setRoom s.rooms roomID
            { emptyRoom with
              players := [{ player with socketID := sid, roomID := some roomID, symbol := "🐇" }] },
          subs := subsJoin s.subs roomID sid },
       joinBroadcasts roomID
         { emptyRoom with
           players := [{ player with socketID := sid, roomID := some roomID, symbol := "🐇" }] }) := by
  have hrec : reconcilePlayer emptyRoom { player with socketID := sid, roomID := some roomID } =
      { emptyRoom with
        players := [{ player with socketID := sid, roomID := some roomID, symbol := "🐇" }] } := by
    simp [reconcilePlayer, emptyRoom, assignSymbol, possibleSymbols, List.find?]
  simp [joinRoom, hnone, h0, hrec]

/-! ### Symbol assignment lemmas -/

theorem find?_fresh_symbol (k : Nat) (hk : k < 11) :
    (possibleSymbols.find? fun c => !((possibleSymbols.take k).contains c))
      = possibleSymbols[k]? := by
  interval_cases k <;> rfl

theorem assignSymbol_eq_get {room : Room} (hk : room.players.length < 11)
    (hsym : room.players.map Player.symbol = possibleSymbols.take room.players.length) :
    some (assignSymbol room) = possibleSymbols[room.players.length]? := by
  have h1 := find?_fresh_symbol room.players.length hk
  simp only [assignSymbol, hsym, h1]
  cases h2 : possibleSymbols[room.players.length]? with
  | none =>
    have h3 : possibleSymbols.length ≤ room.players.length := by
      simpa using List.getElem?_eq_none_iff.mp h2
    simp [possibleSymbols] at h3
    omega
  | some v => simp

theorem symbols_step {room : Room} (player : Player) (hk : room.players.length < 11)
    (hsym : room.players.map Player.symbol = possibleSymbols.take room.players.length) :
    (room.players ++ [{ player with symbol := assignSymbol room }]).map Player.symbol
      = possibleSymbols.take (room.players.length + 1) := by
  rw [List.map_append, hsym, List.take_succ, ← assignSymbol_eq_get hk hsym]
  rfl

/-- Invariant of repeated joins into one existing room: as long as display
names and stable ids stay pairwise fresh and the room never exceeds eleven
players, the symbol column is exactly a leading slice of `possibleSymbols`. -/
theorem runJoins_symbol_inv (roomID : String) (h0 : roomID ≠ "") :
    ∀ (cs : List (String × Player)) (s : ServerState) (room : Room),
      lookupRoom s.rooms roomID = some room →
      (room.players.map Player.name ++ cs.map fun c => c.2.name).Nodup →
      (room.players.map Player.id ++ cs.map fun c => c.2.id).Nodup →
      room.players.length + cs.length ≤ 11 →
      room.players.map Player.symbol = possibleSymbols.take room.players.length →
      ∀ room', lookupRoom (runJoins s roomID cs).rooms roomID = some room' →
        room'.players.map Player.symbol = possibleSymbols.take room'.players.length := by
  intro cs
  induction cs with
  | nil =>
    intro s room hroom _ _ _ hsym room' hlook'
    simp only [runJoins] at hlook'
    rw [hroom] at hlook'
    cases hlook'
    exact hsym
  | cons hd rest ih =>
    obtain ⟨sid, c⟩ := hd
    intro s room hroom hname hid hlen hsym room' hlook'
    have hnm : ∀ p ∈ room.players, p.name ≠ c.name := by
      intro p hp he
      exact List.disjoint_of_nodup_append hname
        (List.mem_map_of_mem Player.name hp) (by simp [he])
    have hidm : ∀ p ∈ room.players, p.id ≠ c.id := by
      intro p hp he
      exact List.disjoint_of_nodup_append hid
        (List.mem_map_of_mem Player.id hp) (by simp [he])
    have hk : room.players.length < 11 := by
      simp only [List.length_cons] at hlen
      omega
    have hnt := nameTaken_eq_false room c hnm
    have hjoin := joinRoom_accepts s sid roomID c room h0 hroom hnt
    have hrec := reconcilePlayer_append
      room { c with socketID := sid, roomID := some roomID }
      (fun p hp => hidm p hp)
    have h1 : lookupRoom ((joinRoom s sid roomID (some c)).1).rooms roomID =
        some { room with players := room.players ++
          [{ c with socketID := sid, roomID := some roomID, symbol := assignSymbol room }] } := by
      rw [hjoin, hrec]
      exact lookupRoom_setRoom_self _ _ _
    refine ih (joinRoom s sid roomID (some c)).1
      { room with players := room.players ++
        [{ c with socketID := sid, roomID := some roomID, symbol := assignSymbol room }] }
      h1 ?_ ?_ ?_ ?_ room' hlook'
    · simp only [List.map_append, List.append_assoc]
      simpa using hname
    · simp only [List.map_append, List.append_assoc]
      simpa using hid
    · simp only [List.length_append, List.length_singleton]
      simp only [List.length_cons] at hlen
      omega
    · have hs := symbols_step { c with socketID := sid, roomID := some roomID } hk hsym
      simpa using hs

/-! ### Frame lemmas: turn pointer and dice are never mutated -/

theorem turnDice_setRoom {rooms : Rooms} {k : String} {r : Room}
    (h : turnDiceAtCreation rooms) (hr : r.currentTurn = 0 ∧ r.dice = (-1, -1)) :
    turnDiceAtCreation (setRoom rooms k r) := by
  intro e he
  rcases mem_setRoom he with h1 | h1
  · exact h e h1
  · rw [h1]; exact hr

theorem turnDice_deleteRoom {rooms : Rooms} {k : String}
    (h : turnDiceAtCreation rooms) : turnDiceAtCreation (deleteRoom rooms k) :=
  fun e he => h e (mem_deleteRoom he)

theorem turnDice_lookup {rooms : Rooms} {k : String} {r : Room}
    (h : turnDiceAtCreation rooms) (hl : lookupRoom rooms k = some r) :
    r.currentTurn = 0 ∧ r.dice = (-1, -1) :=
  h (k, r) (lookupRoom_mem hl)

theorem reconcilePlayer_turn (room : Room) (p : Player) :
    (reconcilePlayer room p).currentTurn = room.currentTurn := by
  unfold reconcilePlayer
  cases room.players.find? fun q => q.id == p.id <;> rfl

theorem reconcilePlayer_dice (room : Room) (p : Player) :
    (reconcilePlayer room p).dice = room.dice := by
  unfold reconcilePlayer
  cases room.players.find? fun q => q.id == p.id <;> rfl

theorem turnDice_joinRoom (s : ServerState) (sid roomID : String) (claim : Option Player)
    (h : turnDiceAtCreation s.rooms) :
    turnDiceAtCreation (joinRoom s sid roomID claim).1.rooms := by
  cases claim with
  | none => exact h
  | some player =>
    by_cases h0 : roomID = ""
    · simpa [joinRoom, h0] using h
    · cases hl : lookupRoom s.rooms roomID with
      | some room =>
        by_cases hnt : nameTaken room player
        · rw [joinRoom_rejects s sid roomID player room h0 hl hnt]
          exact h
        · rw [joinRoom_accepts s sid roomID player room h0 hl (by simpa using hnt)]
          refine turnDice_setRoom h ⟨?_, ?_⟩
          · rw [reconcilePlayer_turn]; exact (turnDice_lookup h hl).1
          · rw [reconcilePlayer_dice]; exact (turnDice_lookup h hl).2
      | none =>
        rw [joinRoom_creates s sid roomID player h0 hl]
        exact turnDice_setRoom h ⟨rfl, rfl⟩

theorem turnDice_updatePlayers (s : ServerState) (roomID : String)
    (msg : JsonMsg (List Player)) (h : turnDiceAtCreation s.rooms) :
    turnDiceAtCreation (updatePlayers s roomID msg).1.rooms := by
  cases msg with
  | invalid raw =>
    cases hl : lookupRoom s.rooms roomID <;> simp only [updatePlayers, hl] <;> exact h
  | wrongShape raw =>
    cases hl : lookupRoom s.rooms roomID with
    | none => simp only [updatePlayers, hl]; exact h
    | some room => simp only [updatePlayers, hl]; exact h
  | ok raw ps =>
    cases hl : lookupRoom s.rooms roomID with
    | none => simp only [updatePlayers, hl]; exact h
    | some room =>
      simp only [updatePlayers, hl]
      exact turnDice_setRoom h ⟨(turnDice_lookup h hl).1, (turnDice_lookup h hl).2⟩

theorem turnDice_startState (s : ServerState) (roomID : String)
    (msg : JsonMsg Bool) (h : turnDiceAtCreation s.rooms) :
    turnDiceAtCreation (startState s roomID msg).1.rooms := by
  cases msg with
  | invalid raw =>
    cases hl : lookupRoom s.rooms roomID <;> simp only [startState, hl] <;> exact h
  | wrongShape raw =>
    cases hl : lookupRoom s.rooms roomID with
    | none => simp only [startState, hl]; exact h
    | some room => simp only [startState, hl]; exact h
  | ok raw b =>
    cases hl : lookupRoom s.rooms roomID with
    | none => simp only [startState, hl]; exact h
    | some room =>
      simp only [startState, hl]
      exact turnDice_setRoom h ⟨(turnDice_lookup h hl).1, (turnDice_lookup h hl).2⟩

theorem turnDice_chatEvent (s : ServerState) (roomID : String)
    (msg : Option String) (h : turnDiceAtCreation s.rooms) :
    turnDiceAtCreation (chatEvent s roomID msg).1.rooms := by
  cases hl : lookupRoom s.rooms roomID with
  | none => simp only [chatEvent, hl]; exact h
  | some room =>
    cases msg with
    | none => simp only [chatEvent, hl]; exact h
    | some m =>
      simp only [chatEvent, hl]
      by_cases hlen : m.length > 500
      · simp only [hlen, if_pos]; exact h
      · simp only [hlen, if_neg, if_false]
        exact turnDice_setRoom h ⟨(turnDice_lookup h hl).1, (turnDice_lookup h hl).2⟩

theorem turnDice_disconnectLoop (sid : String) :
    ∀ rooms : Rooms, turnDiceAtCreation rooms →
      turnDiceAtCreation (handleDisconnectLoop sid rooms).1 := by
  intro rooms
  induction rooms with
  | nil => intro h; exact h
  | cons e0 rest ih =>
    obtain ⟨roomID, room⟩ := e0
    intro h
    cases hf : findWithIdx (fun p => p.socketID == sid) room.players with
    | some ip =>
      simp only [handleDisconnectLoop, hf]
      intro e he
      rcases List.mem_cons.mp he with he | he
      · rw [he]
        exact h (roomID, room) (List.mem_cons_self _ _)
      · exact h e (List.mem_cons_of_mem _ he)
    | none =>
      simp only [handleDisconnectLoop, hf]
      intro e he
      rcases List.mem_cons.mp he with he | he
      · rw [he]
        exact h (roomID, room) (List.mem_cons_self _ _)
      · exact ih (fun x hx => h x (List.mem_cons_of_mem _ hx)) e he

theorem turnDice_handleDisconnect (s : ServerState) (sid : String)
    (h : turnDiceAtCreation s.rooms) :
    turnDiceAtCreation (handleDisconnect s sid).1.rooms :=
  turnDice_disconnectLoop sid s.rooms h

theorem turnDice_fireTimer (s : ServerState) (t : Timer)
    (h : turnDiceAtCreation s.rooms) :
    turnDiceAtCreation (fireTimer s t).1.rooms := by
  cases hl : lookupRoom s.rooms t.roomID with
  | none => simp only [fireTimer, hl]; exact h
  | some room =>
    cases hf : findWithIdx (fun p => p.socketID == t.sid) room.players with
    | none => simp only [fireTimer, hl, hf]; exact h
    | some ip =>
      simp only [fireTimer, hl, hf]
      by_cases hd : ip.2.disconnected
      · simp only [hd, if_pos]
        by_cases hz : (room.players.eraseIdx ip.1).length = 0
        · simp only [hz, if_pos]
          exact turnDice_deleteRoom h
        · simp only [hz, if_neg, if_false]
          exact turnDice_setRoom h ⟨(turnDice_lookup h hl).1, (turnDice_lookup h hl).2⟩
      · simp only [hd]
        exact h

/-! ### Frame lemmas: socket.io subscriptions only ever grow -/

theorem updatePlayers_subs (s : ServerState) (roomID : String) (msg : JsonMsg (List Player)) :
    (updatePlayers s roomID msg).1.subs = s.subs := by
  cases msg <;> cases hl : lookupRoom s.rooms roomID <;> simp [updatePlayers, hl]

theorem startState_subs (s : ServerState) (roomID : String) (msg : JsonMsg Bool) :
    (startState s roomID msg).1.subs = s.subs := by
  cases msg <;> cases hl : lookupRoom s.rooms roomID <;> simp [startState, hl]

theorem chatEvent_subs (s : ServerState) (roomID : String) (msg : Option String) :
    (chatEvent s roomID msg).1.subs = s.subs := by
  cases hl : lookupRoom s.rooms roomID with
  | none => simp [chatEvent, hl]
  | some room =>
    cases msg with
    | none => simp [chatEvent, hl]
    | some m =>
      by_cases hlen : m.length > 500 <;> simp [chatEvent, hl, hlen]

theorem fireTimer_subs (s : ServerState) (t : Timer) :
    (fireTimer s t).1.subs = s.subs := by
  cases hl : lookupRoom s.rooms t.roomID with
  | none => simp [fireTimer, hl]
  | some room =>
    cases hf : findWithIdx (fun p => p.socketID == t.sid) room.players with
    | none => simp [fireTimer, hl, hf]
    | some ip =>
      by_cases hd : ip.2.disconnected
      · by_cases hz : (room.players.eraseIdx ip.1).length = 0 <;>
          simp [fireTimer, hl, hf, hd, hz]
      · simp [fireTimer, hl, hf, hd]

theorem step_subs_mono (t : ServerState) (ev : Event) (sid roomID : String)
    (h : sid ∈ t.subs roomID) : sid ∈ (step t ev).1.subs roomID := by
  cases ev with
  | joinRoomEv sid0 roomID0 claim =>
    cases claim with
    | none => exact h
    | some player =>
      by_cases h0 : roomID0 = ""
      · simpa [step, joinRoom, h0] using h
      · cases hl : lookupRoom t.rooms roomID0 with
        | some room =>
          by_cases hnt : nameTaken room player
          · simp only [step]
            rw [joinRoom_rejects t sid0 roomID0 player room h0 hl hnt]
            exact subsJoin_mem_mono h
          · simp only [step]
            rw [joinRoom_accepts t sid0 roomID0 player room h0 hl (by simpa using hnt)]
            exact subsJoin_mem_mono h
        | none =>
          simp only [step]
          rw [joinRoom_creates t sid0 roomID0 player h0 hl]
          exact subsJoin_mem_mono h
  | updatePlayersEv roomID0 msg =>
    simpa [step, updatePlayers_subs] using h
  | updateTurnEv roomID0 msg => exact h
  | updateDiceEv roomID0 msg => exact h
  | startStateEv roomID0 msg =>
    simpa [step, startState_subs] using h
  | chatEv roomID0 msg =>
    simpa [step, chatEvent_subs] using h
  | disconnectEv sid0 => exact h
  | timerFireEv tm =>
    simpa [step, fireTimer_subs] using h

theorem joinBroadcasts_turn_dice {roomID : String} {room : Room} {e : Emit}
    (he : e ∈ joinBroadcasts roomID room)
    (ht : room.currentTurn = 0) (hd : room.dice = (-1, -1)) :
    (e.event = "update-turn" → e.payload = Payload.jsonTurn 0) ∧
    (e.event = "update-dice" → e.payload = Payload.jsonDice (-1, -1)) := by
  simp only [joinBroadcasts, List.mem_cons, List.not_mem_nil, or_false] at he
  rcases he with he | he | he | he | he <;> subst he
  · exact ⟨fun hev => by simp at hev, fun hev => by simp at hev⟩
  · exact ⟨fun hev => by simp at hev, fun hev => by simp at hev⟩
  · exact ⟨fun _ => by simp [ht], fun hev => by simp at hev⟩
  · exact ⟨fun hev => by simp at hev, fun _ => by simp [hd]⟩
  · exact ⟨fun hev => by simp at hev, fun hev => by simp at hev⟩

/-! ### The claims -/

/-- C1: the claim says a rejoin carrying the same stable id, processed before
the 60-second eviction task fires, prevents the task from removing the
player.  In the code the rejoin leaves the stored record's socket id and
`disconnected` flag untouched, so the firing task still finds the flag set
and evicts the player — and, the room then being empty, deletes the room.
Trace: Bob joins "R", disconnects (task scheduled), rejoins with the same
stable id "2", task fires: room "R" is gone. -/
theorem c1_rejoin_does_not_prevent_eviction :
    c1AfterDisc.timers = [⟨"sB", "R", "Bob"⟩] ∧
    ((lookupRoom c1AfterRejoin.rooms "R").map fun room =>
        room.players.map fun p => (p.id, p.disconnected)) = some [("2", true)] ∧
    lookupRoom c1AfterFire.rooms "R" = none :=
  ⟨by decide, by decide, by decide⟩

/-- C2: joining with an existing stable id does leave the player sequence
length unchanged, but the stored record is NOT updated: after Bob (stored
with socket "old", disconnected) rejoins from socket "new", the stored
record still carries socket id "old" and `disconnected = true`, where the
claim requires the new connection identifier and a cleared flag. -/
theorem c2_reconnect_record_not_updated :
    ((lookupRoom (joinRoom c2State "new" "R" (some (mkClaim "2" "Bob"))).1.rooms "R").map
        fun room => room.players.map fun p => (p.socketID, p.disconnected))
      = some [("old", true)] := by decide

/-- C3 counterexample: after twelve successful joins with pairwise distinct
stable ids (and names) into room "R", the twelfth player receives the
fallback "🐇" already held by the first player, so the room's symbols are
not pairwise distinct — refuting the claim for unbounded join sequences. -/
theorem c3_twelfth_join_duplicates_symbol :
    (lookupRoom after12.rooms "R").isSome = true ∧
    ¬ (((lookupRoom after12.rooms "R").getD emptyRoom).players.map Player.symbol).Nodup :=
  ⟨by decide, by decide⟩

/-- C3 (amended): for every sequence of at most eleven successful join events
with pairwise distinct stable ids (and pairwise distinct display names, which
successful joins require) into one room, every player in the resulting room
has a distinct symbol: the symbol column is exactly the leading slice of the
fixed eleven-symbol alphabet, i.e. first-available assignment in the
alphabet's fixed order. -/
theorem c3_symbols_unique_up_to_eleven (roomID : String) (h0 : roomID ≠ "")
    (cs : List (String × Player))
    (hname : (cs.map fun c => c.2.name).Nodup)
    (hid : (cs.map fun c => c.2.id).Nodup)
    (hlen : cs.length ≤ 11) :
    ∀ room', lookupRoom (runJoins initState roomID cs).rooms roomID = some room' →
      (room'.players.map Player.symbol).Nodup ∧
      room'.players.map Player.symbol = possibleSymbols.take room'.players.length := by
  have key : ∀ room', lookupRoom (runJoins initState roomID cs).rooms roomID = some room' →
      room'.players.map Player.symbol = possibleSymbols.take room'.players.length := by
    cases cs with
    | nil =>
      intro room' h
      simp [runJoins, initState, lookupRoom] at h
    | cons hd rest =>
      obtain ⟨sid, c⟩ := hd
      intro room' hlook'
      have hnone : lookupRoom initState.rooms roomID = none := rfl
      have hjoin := joinRoom_creates initState sid roomID c h0 hnone
      have h1 : lookupRoom ((joinRoom initState sid roomID (some c)).1).rooms roomID =
          some { emptyRoom with players :=
            [{ c with socketID := sid, roomID := some roomID, symbol := "🐇" }] } := by
        rw [hjoin]
        exact lookupRoom_setRoom_self _ _ _
      refine runJoins_symbol_inv roomID h0 rest (joinRoom initState sid roomID (some c)).1
        { emptyRoom with players :=
          [{ c with socketID := sid, roomID := some roomID, symbol := "🐇" }] }
        h1 ?_ ?_ ?_ ?_ room' hlook'
      · simpa [emptyRoom] using hname
      · simpa [emptyRoom] using hid
      · simp only [List.length_cons] at hlen
        simp only [emptyRoom, List.length_singleton]
        omega
      · rfl
  intro room' h
  refine ⟨?_, key room' h⟩
  rw [key room' h]
  exact List.Nodup.sublist (List.take_sublist _ _) (by decide)

/-- C3 witness: two concrete joins into "R" yield pairwise distinct symbols
taken from the head of the alphabet. -/
theorem c3_symbols_witness :
    (((lookupRoom (runJoins initState "R"
        [("s1", mkClaim "1" "P1"), ("s2", mkClaim "2" "P2")]).rooms "R").getD
          emptyRoom).players.map Player.symbol).Nodup := by
  have h := c3_symbols_unique_up_to_eleven "R" (by decide)
    [("s1", mkClaim "1" "P1"), ("s2", mkClaim "2" "P2")]
    (by decide) (by decide) (by decide)
  exact (h _ (by decide)).1

/-- C4: a join whose display name matches a player already in an existing
room under a different stable id leaves the registry and timers untouched
(only the idempotent socket.io subscription is added) and emits exactly one
`name-taken` to the requesting socket — no room-wide broadcast. -/
theorem c4_name_taken_rejection (s : ServerState) (sid roomID : String)
    (player : Player) (room : Room)
    (h0 : roomID ≠ "")
    (hroom : lookupRoom s.rooms roomID = some room)
    (htaken : nameTaken room player = true) :
    joinRoom s sid roomID (some player) =
      ({ s with subs := subsJoin s.subs roomID sid },
       [⟨Target.toSocket sid, "name-taken", Payload.jsonBool true⟩]) :=
  joinRoom_rejects s sid roomID player room h0 hroom htaken

/-- C4 witness: "Alice" is already taken by stable id "1" in room "R"; a
claim for "Alice" under stable id "2" is rejected with no state change. -/
theorem c4_name_taken_witness :
    joinRoom w10State "s2" "R" (some (mkClaim "2" "Alice")) =
      ({ w10State with subs := subsJoin w10State.subs "R" "s2" },
       [⟨Target.toSocket "s2", "name-taken", Payload.jsonBool true⟩]) :=
  c4_name_taken_rejection w10State "s2" "R" (mkClaim "2" "Alice") w10Room
    (by decide) rfl (by decide)

/-- C5 counterexample: with no room "R" in the registry, `update-turn` still
emits to the room's broadcast channel (the raw payload is forwarded), so the
claim's "no broadcast is emitted" fails for update-turn (likewise
update-dice). -/
theorem c5_update_turn_broadcasts_without_room :
    lookupRoom initState.rooms "R" = none ∧
    (updateTurn initState "R" "5").2
        = [⟨Target.toRoom "R", "update-turn", Payload.raw "5"⟩] ∧
    (updateTurn initState "R" "5").2 ≠ [] :=
  ⟨rfl, rfl, by decide⟩

/-- C5 (amended): mutation events on an unknown room leave the registry
untouched and create no room; `update-players`, `start-state` and `chat`
emit nothing, while `update-turn` and `update-dice` never read the registry
and always forward the raw payload to the room channel. -/
theorem c5_unknown_room_fail_soft (s : ServerState) (roomID : String)
    (h : lookupRoom s.rooms roomID = none) :
    (∀ msg, updatePlayers s roomID msg = (s, [])) ∧
    (∀ msg, startState s roomID msg = (s, [])) ∧
    (∀ msg, chatEvent s roomID msg = (s, [])) ∧
    (∀ msg, updateTurn s roomID msg
        = (s, [⟨Target.toRoom roomID, "update-turn", Payload.raw msg⟩])) ∧
    (∀ msg, updateDice s roomID msg
        = (s, [⟨Target.toRoom roomID, "update-dice", Payload.raw msg⟩])) := by
  refine ⟨?_, ?_, ?_, fun msg => rfl, fun msg => rfl⟩
  · intro msg; cases msg <;> simp [updatePlayers, h]
  · intro msg; cases msg <;> simp [startState, h]
  · intro msg; cases msg <;> simp [chatEvent, h]

/-- C5 witness: on the empty registry, update-players and chat no-op while
update-turn forwards. -/
theorem c5_unknown_room_witness :
    updatePlayers initState "R" (JsonMsg.invalid "oops") = (initState, []) ∧
    chatEvent initState "R" (some "hi") = (initState, []) ∧
    updateTurn initState "R" "7"
      = (initState, [⟨Target.toRoom "R", "update-turn", Payload.raw "7"⟩]) := by
  have h := c5_unknown_room_fail_soft initState "R" rfl
  exact ⟨h.1 _, h.2.2.1 _, h.2.2.2.1 _⟩

/-- C6: on an existing room, a payload that fails JSON parsing or parses to
the wrong shape (non-array for update-players, non-boolean for start-state)
leaves the server state unchanged and emits nothing; a valid array replaces
the player sequence wholesale and is broadcast, a valid boolean is stored
and the raw message re-broadcast. -/
theorem c6_payload_validation (s : ServerState) (roomID : String) (room : Room)
    (h : lookupRoom s.rooms roomID = some room) :
    (∀ raw, updatePlayers s roomID (JsonMsg.invalid raw) = (s, [])) ∧
    (∀ raw, updatePlayers s roomID (JsonMsg.wrongShape raw) = (s, [])) ∧
    (∀ raw ps, updatePlayers s roomID (JsonMsg.ok raw ps) =
      ({ s with rooms := setRoom s.rooms roomID { room with players := ps } },
       [⟨Target.toRoom roomID, "update-players", Payload.jsonPlayers ps⟩])) ∧
    (∀ raw, startState s roomID (JsonMsg.invalid raw) = (s, [])) ∧
    (∀ raw, startState s roomID (JsonMsg.wrongShape raw) = (s, [])) ∧
    (∀ raw b, startState s roomID (JsonMsg.ok raw b) =
      ({ s with rooms := setRoom s.rooms roomID { room with started := b } },
       [⟨Target.toRoom roomID, "start-state", Payload.raw raw⟩])) := by
  refine ⟨fun raw => ?_, fun raw => ?_, fun raw ps => ?_,
          fun raw => ?_, fun raw => ?_, fun raw b => ?_⟩ <;>
    simp [updatePlayers, startState, h]

/-- C6 witness: invalid JSON no-ops; a boolean start-state payload is stored
and re-broadcast. -/
theorem c6_payload_witness :
    updatePlayers w10State "R" (JsonMsg.invalid "nope") = (w10State, []) ∧
    startState w10State "R" (JsonMsg.ok "true" true) =
      ({ w10State with rooms := setRoom w10State.rooms "R" { w10Room with started := true } },
       [⟨Target.toRoom "R", "start-state", Payload.raw "true"⟩]) := by
  have h := c6_payload_validation w10State "R" w10Room rfl
  exact ⟨h.1 "nope", h.2.2.2.2.2 "true" true⟩

/-- C7: chat on an existing room: a non-string message or a string longer
than 500 characters leaves the chat unchanged with no broadcast; a string of
at most 500 characters is appended and the full updated chat list is
broadcast to the room. -/
theorem c7_chat_length_guard (s : ServerState) (roomID : String) (room : Room)
    (h : lookupRoom s.rooms roomID = some room) :
    (chatEvent s roomID none = (s, [])) ∧
    (∀ m : String, m.length > 500 → chatEvent s roomID (some m) = (s, [])) ∧
    (∀ m : String, m.length ≤ 500 → chatEvent s roomID (some m) =
      ({ s with rooms := setRoom s.rooms roomID { room with chat := room.chat ++ [m] } },
       [⟨Target.toRoom roomID, "chat", Payload.jsonChat (room.chat ++ [m])⟩])) := by
  refine ⟨by simp [chatEvent, h], fun m hm => by simp [chatEvent, h, hm], fun m hm => ?_⟩
  have hgt : ¬ m.length > 500 := by omega
  simp [chatEvent, h, hgt]

/-- C7 witness: "hi" is appended to room "R" chat and broadcast. -/
theorem c7_chat_witness :
    chatEvent w10State "R" (some "hi") =
      ({ w10State with
          rooms := setRoom w10State.rooms "R" { w10Room with chat := w10Room.chat ++ ["hi"] } },
       [⟨Target.toRoom "R", "chat", Payload.jsonChat (w10Room.chat ++ ["hi"])⟩]) := by
  have h := c7_chat_length_guard w10State "R" w10Room rfl
  exact h.2.2 "hi" (by decide)

/-- C8: a join naming an unknown room (truthy room id and claim; the name
check is vacuous since there is no room) always succeeds and creates the
room with exactly the empty state — no players, turn 0, dice (-1,-1), not
started, empty chat — before appending the joining player to it. -/
theorem c8_room_creation (s : ServerState) (sid roomID : String) (player : Player)
    (h0 : roomID ≠ "") (hnone : lookupRoom s.rooms roomID = none) :
    joinRoom s sid roomID (some player) =
      ({ s with
          rooms := setRoom s.rooms roomID
            { players := [{ player with socketID := sid, roomID := some roomID, symbol := "🐇" }],
              currentTurn := 0, dice := (-1, -1), started := false, chat := [] },
          subs := subsJoin s.subs roomID sid },
       joinBroadcasts roomID
         { players := [{ player with socketID := sid, roomID := some roomID, symbol := "🐇" }],
           currentTurn := 0, dice := (-1, -1), started := false, chat := [] }) :=
  joinRoom_creates s sid roomID player h0 hnone

/-- C8 witness: joining absent room "R" creates it around the single new
player. -/
theorem c8_room_creation_witness :
    joinRoom initState "s1" "R" (some (mkClaim "1" "P1")) =
      ({ initState with
          rooms := setRoom initState.rooms "R"
            { players := [p1New],
              currentTurn := 0, dice := (-1, -1), started := false, chat := [] },
          subs := subsJoin initState.subs "R" "s1" },
       joinBroadcasts "R"
         { players := [p1New],
           currentTurn := 0, dice := (-1, -1), started := false, chat := [] }) :=
  c8_room_creation initState "s1" "R" (mkClaim "1" "P1") (by decide) rfl

/-- C9: `update-turn` / `update-dice` leave the stored server state entirely
unchanged and only forward the raw payload; moreover no event ever writes
`currentTurn` or `dice`, so every room retains its creation values, and the
turn/dice broadcasts of a later `join-room` report 0 and (-1,-1) — the
values at room creation — not the last announced ones. -/
theorem c9_turn_dice_frame (s : ServerState) (ev : Event)
    (hinv : turnDiceAtCreation s.rooms) :
    turnDiceAtCreation (step s ev).1.rooms ∧
    (∀ roomID msg, step s (Event.updateTurnEv roomID msg)
        = (s, [⟨Target.toRoom roomID, "update-turn", Payload.raw msg⟩])) ∧
    (∀ roomID msg, step s (Event.updateDiceEv roomID msg)
        = (s, [⟨Target.toRoom roomID, "update-dice", Payload.raw msg⟩])) ∧
    (∀ sid roomID claim e, e ∈ (step s (Event.joinRoomEv sid roomID claim)).2 →
      (e.event = "update-turn" → e.payload = Payload.jsonTurn 0) ∧
      (e.event = "update-dice" → e.payload = Payload.jsonDice (-1, -1))) := by
  refine ⟨?_, fun roomID msg => rfl, fun roomID msg => rfl, ?_⟩
  · cases ev with
    | joinRoomEv sid roomID claim => exact turnDice_joinRoom s sid roomID claim hinv
    | updatePlayersEv roomID msg => exact turnDice_updatePlayers s roomID msg hinv
    | updateTurnEv roomID msg => exact hinv
    | updateDiceEv roomID msg => exact hinv
    | startStateEv roomID msg => exact turnDice_startState s roomID msg hinv
    | chatEv roomID msg => exact turnDice_chatEvent s roomID msg hinv
    | disconnectEv sid => exact turnDice_handleDisconnect s sid hinv
    | timerFireEv t => exact turnDice_fireTimer s t hinv
  · intro sid roomID claim e he
    cases claim with
    | none => simp [step, joinRoom] at he
    | some player =>
      by_cases h0 : roomID = ""
      · simp [step, joinRoom, h0] at he
      · cases hl : lookupRoom s.rooms roomID with
        | some room =>
          by_cases hnt : nameTaken room player
          · simp only [step] at he
            rw [joinRoom_rejects s sid roomID player room h0 hl hnt] at he
            simp only [List.mem_cons, List.not_mem_nil, or_false] at he
            subst he
            exact ⟨fun hev => by simp at hev, fun hev => by simp at hev⟩
          · simp only [step] at he
            rw [joinRoom_accepts s sid roomID player room h0 hl (by simpa using hnt)] at he
            refine joinBroadcasts_turn_dice he ?_ ?_
            · rw [reconcilePlayer_turn]; exact (turnDice_lookup hinv hl).1
            · rw [reconcilePlayer_dice]; exact (turnDice_lookup hinv hl).2
        | none =>
          simp only [step] at he
          rw [joinRoom_creates s sid roomID player h0 hl] at he
          exact joinBroadcasts_turn_dice he rfl rfl

/-- C9 witness: from the initial state, update-turn forwards "9" and mutates
nothing. -/
theorem c9_turn_dice_witness :
    turnDiceAtCreation (step initState (Event.updateTurnEv "R" "9")).1.rooms ∧
    step initState (Event.updateTurnEv "R" "9")
      = (initState, [⟨Target.toRoom "R", "update-turn", Payload.raw "9"⟩]) := by
  have h := c9_turn_dice_frame initState (Event.updateTurnEv "R" "9")
    (by intro e he; exact absurd he (List.not_mem_nil e))
  exact ⟨h.1, h.2.1 "R" "9"⟩

/-- C10: `socket.join` runs before the duplicate-name check, so a requester
rejected with `name-taken` remains subscribed to the room's broadcast group;
no event ever removes a subscription, and every room-channel emit is
delivered to every subscriber, so the rejected socket receives all
subsequent broadcasts for that room. -/
theorem c10_rejected_joiner_remains_subscribed (s : ServerState) (sid roomID : String)
    (player : Player) (room : Room)
    (h0 : roomID ≠ "")
    (hroom : lookupRoom s.rooms roomID = some room)
    (htaken : nameTaken room player = true) :
    (joinRoom s sid roomID (some player)).2
        = [⟨Target.toSocket sid, "name-taken", Payload.jsonBool true⟩] ∧
    sid ∈ (joinRoom s sid roomID (some player)).1.subs roomID ∧
    (∀ (t : ServerState) (ev : Event), sid ∈ t.subs roomID →
        sid ∈ (step t ev).1.subs roomID) ∧
    (∀ (t : ServerState) (e : Emit), e.target = Target.toRoom roomID →
        sid ∈ t.subs roomID → deliversTo t.subs e sid = true) := by
  refine ⟨?_, ?_, ?_, ?_⟩
  · rw [joinRoom_rejects s sid roomID player room h0 hroom htaken]
  · rw [joinRoom_rejects s sid roomID player room h0 hroom htaken]
    exact subsJoin_mem_self s.subs roomID sid
  · intro t ev h
    exact step_subs_mono t ev sid roomID h
  · intro t e htarget hmem
    simp only [deliversTo, htarget]
    exact List.elem_eq_true_of_mem hmem

/-- C10 witness: the rejected "Alice" claimant on socket "s2" is subscribed
to "R" and still subscribed after a subsequent chat event. -/
theorem c10_subscribed_witness :
    (joinRoom w10State "s2" "R" (some (mkClaim "2" "Alice"))).2
        = [⟨Target.toSocket "s2", "name-taken", Payload.jsonBool true⟩] ∧
    "s2" ∈ (joinRoom w10State "s2" "R" (some (mkClaim "2" "Alice"))).1.subs "R" ∧
    "s2" ∈ (step (joinRoom w10State "s2" "R" (some (mkClaim "2" "Alice"))).1
        (Event.chatEv "R" (some "hello"))).1.subs "R" := by
  have h := c10_rejected_joiner_remains_subscribed w10State "s2" "R" (mkClaim "2" "Alice")
    w10Room (by decide) rfl (by decide)
  exact ⟨h.1, h.2.1, h.2.2.1 _ (Event.chatEv "R" (some "hello")) h.2.1⟩

end Calopoly
